import Mathlib

/-!
Formal models of the invasiv projection-mapping cluster's synchronization
substrate, shallowly embedded from the C++ sources, with theorems settling
the behavioural claims about path resolution, loopback suppression, the
warp-surface grids, file-chunk bounds checking, the filesystem watcher,
the sync engine's convergence pass, session reuse, node identity and the
announce-handshake parser.
-/

namespace Invasiv

/-! ## Peer records and Coms::parseIpPort (Coms.h / Coms.cpp) -/

/-- Peer record from Coms.h: uid, ip, is_self, syncPort, last_seen.
A default-constructed Peer (as produced by std::map operator[]) has empty
strings and zero-initialised scalars. -/
structure Peer where
  uid : String
  ip : String
  is_self : Bool
  syncPort : Nat
  last_seen : Nat
  deriving Repr, DecidableEq

/-- Splits a character list at its LAST colon, mirroring input.rfind of the
character colon in Coms::parseIpPort: some (before, after) when a colon
occurs, none otherwise. -/
def splitLastColonAux : List Char → Option (List Char × List Char)
  | [] => none
  | c :: rest =>
    match splitLastColonAux rest with
    | some (pre, post) => some (c :: pre, post)
    | none => if c = ':' then some ([], rest) else none

/-- String wrapper of splitLastColonAux: the substrings before and after the
last colon of the input. -/
def splitAtLastColon (s : String) : Option (String × String) :=
  (splitLastColonAux s.data).map fun pp => (String.mk pp.1, String.mk pp.2)

/-- Decimal value of a digit string, most significant first, exactly as
accumulated by std::from_chars. -/
def digitsVal (s : String) : Nat :=
  s.data.foldl (fun a c => a * 10 + (c.toNat - 48)) 0

/-- std::from_chars into a uint16_t, followed by the two checks of
Coms::parseIpPort (ec being errc and ptr having reached the end): the call
succeeds exactly when the string is a nonempty run of decimal digits whose
value fits in 16 bits. from_chars accepts no sign, no blank and no base
marker for an unsigned target, so this is the whole behaviour. -/
def fromCharsU16 (s : String) : Option Nat :=
  if s.data ≠ [] ∧ s.data.all Char.isDigit then
    if digitsVal s ≤ 65535 then some (digitsVal s) else none
  else none

/-- Coms::parseIpPort (Coms.cpp lines 151 to 179): find the last colon, parse
the trailing substring as a uint16_t port via from_chars; on success set the
peer's ip to the part before the colon and syncPort to the port, on any
failure return false having written nothing. -/
def parseIpPort (input : String) (out : Peer) : Bool × Peer :=
  match splitAtLastColon input with
  | none => (false, out)
  | some (ipPart, portStr) =>
    match fromCharsU16 portStr with
    | none => (false, out)
    | some port => (true, { out with ip := ipPart, syncPort := port })

/-! ## Identity::setup (MediaWatcher.h, Identity section) -/

/-- The base62 alphabet indexed by Identity::generateID. -/
def alphanumChars : List Char :=
  "0123456789ABCDEFGHIJKLMNOPQRSTUVWXYZabcdefghijklmnopqrstuvwxyz".data

/-- Identity::generateID: eight characters picked from the alphanumeric table
at index floor of ofRandom(0, 61), here driven by an arbitrary random source
reduced mod 61 (so indices 0 to 60, as in the source). -/
def generateID (rnd : Nat → Nat) : String :=
  String.mk ((List.range 8).map fun i => alphanumChars.getD (rnd i % 61) '0')

/-- Identity::setup: stored is the id found in the settings document (none
when the document or the key is missing), fresh is the id generateID would
produce. Returns the resulting myId and whether save() was called. The only
test the source applies to a stored id is myId.length() being 8. -/
def identitySetup (stored : Option String) (fresh : String) : String × Bool :=
  let myId := stored.getD ""
  if myId.length ≠ 8 then (fresh, true) else (myId, false)

/-! ## WarpSurface::setup and WarpSurface::toJson (WarpSurface.h) -/

/-- The vertex grid built by WarpSurface::setup: y runs from 0 to rows
inclusive and x from 0 to cols inclusive, each vertex being
(x divided by cols, y divided by rows). Division is taken in the rationals in
place of C++ float; the vertex count, the property at issue, is unaffected.
Negative loop bounds give the empty grid, as the C++ for loops do. -/
def setupGrid (rows cols : Int) : List (ℚ × ℚ) :=
  (List.range (rows + 1).toNat).flatMap fun y : ℕ =>
    (List.range (cols + 1).toNat).map fun x : ℕ =>
      ((x : ℚ) / (cols : ℚ), (y : ℚ) / (rows : ℚ))

/-- The mesh state WarpSurface::setup leaves behind: both the render mesh and
the source mesh receive the same grid of vertices. -/
structure WarpSurfaceState where
  rows : Int
  cols : Int
  renderVerts : List (ℚ × ℚ)
  sourceVerts : List (ℚ × ℚ)
  deriving Repr, DecidableEq

/-- WarpSurface::setup (WarpSurface.h lines 22 to 46): store rows and cols and
fill both meshes with the grid. -/
def warpSetup (rows cols : Int) : WarpSurfaceState :=
  { rows := rows, cols := cols,
    renderVerts := setupGrid rows cols, sourceVerts := setupGrid rows cols }

/-- WarpSurface::toJson (WarpSurface.h lines 104 to 110): the geo array gets
every render-mesh vertex and the tex array every source-mesh vertex, in
order. -/
def toJsonGrids (s : WarpSurfaceState) : List (ℚ × ℚ) × List (ℚ × ℚ) :=
  (s.renderVerts, s.sourceVerts)

/-! ## MediaWatcher::scan (MediaWatcher.h lines 137 to 231) -/

/-- Tracking state MediaWatcher keeps per relative path (struct PathInfo).
File times and the steady clock are abstract integer tick counts. -/
structure PathInfo where
  last_md5 : String
  lastTime : Int
  candidateTime : Int
  stabilizationStart : Int
  isSettling : Bool
  deriving Repr, DecidableEq

/-- What one scan observes about a tracked file: its on-disk mtime, the scan's
steady-clock time, the settling knob in milliseconds, and the digest TinyMD5
would return were the file hashed at that instant. -/
structure ScanObs where
  diskTime : Int
  now : Int
  settleTime : Int
  md5 : String
  deriving Repr, DecidableEq

/-- The sentinel digest getFileMD5 yields when the file cannot be read; the
scan treats it as "not readable yet" and keeps settling. -/
def md5Unreadable : String := "00000000000000000000000000000000"

/-- One scan step for a file already tracked (MediaWatcher::scan lines 174 to
210): compare the on-disk mtime with the last confirmed one, drive the
settling window, and once the candidate mtime has been stable longer than
settleTime hash the file; the path is emitted exactly when the fresh digest
is readable and differs from last_md5, which is committed at the same moment.
Returns the new PathInfo and the digest carried by the emission, if any. -/
def scanStepFile (info : PathInfo) (o : ScanObs) : PathInfo × Option String :=
  if o.diskTime ≠ info.lastTime then
    if ¬ info.isSettling then
      ({ info with isSettling := true, candidateTime := o.diskTime,
                   stabilizationStart := o.now }, none)
    else if o.diskTime ≠ info.candidateTime then
      ({ info with candidateTime := o.diskTime, stabilizationStart := o.now }, none)
    else if o.now - info.stabilizationStart > o.settleTime then
      if o.md5 ≠ md5Unreadable then
        if o.md5 ≠ info.last_md5 then
          ({ info with last_md5 := o.md5, lastTime := o.diskTime, isSettling := false },
           some o.md5)
        else
          ({ info with lastTime := o.diskTime, isSettling := false }, none)
      else (info, none)
    else (info, none)
  else
    ({ info with isSettling := false }, none)

/-- Registration of a newly discovered file (MediaWatcher::scan lines 162 to
171): empty digest, minimal confirmed mtime, settling starts at once, and
nothing is emitted. -/
def scanRegisterFile (o : ScanObs) (minTime : Int) : PathInfo × Option String :=
  ({ last_md5 := "", lastTime := minTime, candidateTime := o.diskTime,
     stabilizationStart := o.now, isSettling := true }, none)

/-- A run of scans over one tracked file: thread the PathInfo through the
observations in order, collecting the emitted digests. -/
def scanRunFile (info : PathInfo) : List ScanObs → PathInfo × List String
  | [] => (info, [])
  | o :: rest =>
    let step := scanStepFile info o
    let tail := scanRunFile step.1 rest
    (tail.1, step.2.toList ++ tail.2)

/-- The value of fs::file_time_type::min(), the confirmed mtime a freshly
registered file starts from: the most negative 64-bit tick count. -/
def fsTimeMin : Int := -9223372036854775808

/-- What one scan of the directory sees of a given relative path: the file
with its observation, or no file at all. -/
inductive ScanSight where
  | present (o : ScanObs)
  | absent
  deriving Repr, DecidableEq

/-- The full per-path lifecycle of one scan (MediaWatcher::scan): a path not
seen by the walk has its entry erased silently (lines 216 to 224, and a never
tracked absent path stays untracked); a present untracked path is registered
with an empty last_md5 and starts settling (lines 162 to 171); a present
tracked path takes the ordinary step. -/
def scanLifeStep (st : Option PathInfo) (s : ScanSight) : Option PathInfo × Option String :=
  match s, st with
  | ScanSight.absent, _ => (none, none)
  | ScanSight.present o, none =>
    let r := scanRegisterFile o fsTimeMin
    (some r.1, r.2)
  | ScanSight.present o, some info =>
    let r := scanStepFile info o
    (some r.1, r.2)

/-- A sequence of scans of one path through its whole lifecycle, vanishing
and reappearing included, collecting the emitted digests. -/
def scanLifeRun (st : Option PathInfo) : List ScanSight → Option PathInfo × List String
  | [] => (st, [])
  | s :: rest =>
    let step := scanLifeStep st s
    let tail := scanLifeRun step.1 rest
    (tail.1, step.2.toList ++ tail.2)

/-- Helper: an emitting scan step emits a digest that differs from the stored
last_md5 and becomes the new last_md5. -/
theorem scanStepFile_emit (info : PathInfo) (o : ScanObs) (d : String)
    (h : (scanStepFile info o).2 = some d) :
    d ≠ info.last_md5 ∧ (scanStepFile info o).1.last_md5 = d := by
  unfold scanStepFile at h ⊢
  split_ifs at h ⊢
  all_goals simp_all

/-- Helper: a non-emitting scan step leaves last_md5 unchanged. -/
theorem scanStepFile_noemit (info : PathInfo) (o : ScanObs)
    (h : (scanStepFile info o).2 = none) :
    (scanStepFile info o).1.last_md5 = info.last_md5 := by
  unfold scanStepFile at h ⊢
  split_ifs at h ⊢ <;> simp_all

/-! ## SyncClient convergence pass (sync.h lines 1053 to 1083, mirrored by the
ClientSession variant) -/

/-- A content entry as the sync engine caches it: file size and digest, the
value type of m_local_cache and of the parsed LIST reply. -/
structure FileEntry where
  size : Nat
  digest : String
  deriving Repr, DecidableEq

/-- Lookup standing for unordered_map::find; the association list carries the
container's iteration order. -/
def lookupEntry (m : List (String × FileEntry)) (p : String) : Option FileEntry :=
  (m.find? fun pe => pe.1 = p).map Prod.snd

/-- The operations a convergence pass issues against one peer. -/
inductive SyncOp where
  | upload (relPath : String)
  | del (relPath : String)
  deriving Repr, DecidableEq

/-- The need_upload test of SyncClient::threadedFunction: the remote listing
misses the path, or the remote digest differs from the local one. -/
def needUpload (remote : List (String × FileEntry)) (p : String) (e : FileEntry) : Bool :=
  match lookupEntry remote p with
  | none => true
  | some re => re.digest ≠ e.digest

/-- One convergence pass of SyncClient::threadedFunction: walk the local
cache in its container order issuing an upload wherever need_upload holds,
then walk the remote listing in its container order issuing a delete for
every path absent locally. Both containers are unordered hash maps in the
source (m_local_cache and the list() result); the association lists here
carry their iteration order, which the source does not sort. -/
def passOps (localCache remote : List (String × FileEntry)) : List SyncOp :=
  ((localCache.filter fun pe => needUpload remote pe.1 pe.2).map fun pe =>
    SyncOp.upload pe.1) ++
  ((remote.filter fun pe => (lookupEntry localCache pe.1).isNone).map fun pe =>
    SyncOp.del pe.1)

/-- The relative paths of the pass's upload operations, in issue order. -/
def uploadPathsOf (ops : List SyncOp) : List String :=
  ops.filterMap fun o =>
    match o with
    | SyncOp.upload p => some p
    | SyncOp.del _ => none

/-! ## safe_path (sync.h lines 583 to 587, identical in the ClientSession
variant lines 441 to 445) -/

/-- A lexical POSIX path: whether it is absolute and its components. -/
structure FsPath where
  absolute : Bool
  comps : List String
  deriving Repr, DecidableEq

/-- Splitting a character list at slashes, the first argument accumulating
the current component reversed (helper of parsePath). -/
def splitSlashAux (cur : List Char) : List Char → List String
  | [] => [String.mk cur.reverse]
  | c :: rest =>
    if c = '/' then String.mk cur.reverse :: splitSlashAux [] rest
    else splitSlashAux (c :: cur) rest

/-- fs::path construction: split the string at slashes into components, a
leading slash making it absolute; repeated slashes collapse; dot and dot-dot
stay ordinary components until lexically_normal runs. -/
def parsePath (s : String) : FsPath :=
  { absolute := s.data.head? == some '/',
    comps := (splitSlashAux [] s.data).filter (fun c => c ≠ "") }

/-- Component pass of path::lexically_normal: a dot is dropped; a dot-dot
erases a preceding component that is itself no dot-dot; a dot-dot directly
under the root of an absolute path is dropped, while in a relative path it is
kept. The accumulator is the output built so far. -/
def normAux (absolute : Bool) (acc : List String) : List String → List String
  | [] => acc
  | c :: rest =>
    if c = "." then normAux absolute acc rest
    else if c = ".." then
      match acc.getLast? with
      | some l =>
        if l = ".." then normAux absolute (acc ++ [".."]) rest
        else normAux absolute acc.dropLast rest
      | none =>
        if absolute then normAux absolute acc rest
        else normAux absolute [".."] rest
    else normAux absolute (acc ++ [c]) rest

/-- path::lexically_normal: run the component pass; a relative path left with
no component becomes the single dot, as the C++ rule prescribes. -/
def lexNormal (p : FsPath) : FsPath :=
  let c := normAux p.absolute [] p.comps
  { absolute := p.absolute, comps := if c = [] ∧ p.absolute = false then ["."] else c }

/-- ClientHandler::safe_path: lexically normalize the received path, make an
absolute one relative to the root directory (lexically_relative of slash),
then resolve against the transfer root, an absolute directory given by its
components; fs::absolute performs no collapsing on the already absolute
result. -/
def safe_path (rel : String) (root : List String) : FsPath :=
  let p := lexNormal (parsePath rel)
  let q := if p.absolute then ({ absolute := false, comps := p.comps } : FsPath) else p
  { absolute := true, comps := root ++ q.comps }

/-- What the operating system resolves an absolute component list to: a dot
vanishes and a dot-dot steps to the parent, the parent of the root being the
root itself. -/
def osResolve (comps : List String) : List String :=
  comps.foldl (fun acc c =>
    if c = "." then acc
    else if c = ".." then acc.dropLast
    else acc ++ [c]) []

/-- The resolved location lies inside the transfer root. -/
def insideRoot (root : List String) (p : FsPath) : Prop :=
  p.absolute = true ∧ (osResolve p.comps).take root.length = root

instance (root : List String) (p : FsPath) : Decidable (insideRoot root p) :=
  inferInstanceAs (Decidable (_ ∧ _))

/-! ## ofApp::update packet dispatch (ofApp.cpp lines 85 to 171, PacketDef.h) -/

/-- A 32-bit float travelling on the wire, kept as its bit pattern: the
handlers pass coordinates through without computing on them. -/
abbrev F32 := Nat

/-- The body of a control-plane packet, one constructor per PacketType of
PacketDef.h, carrying the fields of the corresponding packed struct. In
PKT_FILE_CHUNK, offset is the uint32_t field, size the uint16_t field, and
payload the size bytes following the header. -/
inductive PacketBody where
  | heartbeat (peerId : String) (isMaster : Bool)
  | warpData (ownerId : String) (surfaceIndex mode pointIndex : Nat) (x y : F32)
  | structData (json : String)
  | fileOffer (totalSize nameLen : Nat) (hash : String) (name : String)
  | fileChunk (offset size : Nat) (payload : List Nat)
  | fileEnd
  deriving Repr, DecidableEq

/-- A received datagram: the one-byte header id, the eight-byte sender id,
and the typed body. -/
structure Packet where
  headerId : Nat
  senderId : String
  body : PacketBody
  deriving Repr, DecidableEq

/-- The value of the PACKET_ID magic byte. -/
def PACKET_ID : Nat := 0xAA

/-- A peer record of Network (peers map of ofApp): id, mastership and the
time of the last heartbeat. -/
structure PeerRec where
  peerId : String
  isMaster : Bool
  lastSeen : Int
  deriving Repr, DecidableEq

/-- The incoming-transfer state of ofApp (struct incoming of ofApp.h):
total and current are uint32_t; the buffer is kept as the log of the memcpy
stores performed into it, each an offset paired with the bytes written. -/
structure Incoming where
  active : Bool
  name : String
  total : Nat
  current : Nat
  writes : List (Nat × List Nat)
  deriving Repr, DecidableEq

/-- Side effects the handlers delegate to collaborators: a warp point update,
a structure-document load, or the full-state broadcast a master starts for a
newly discovered peer. -/
inductive AppEffect where
  | warpUpdate (ownerId : String) (surfaceIndex mode pointIndex : Nat) (x y : F32)
  | loadStructure (json : String)
  | fullSync
  deriving Repr, DecidableEq

/-- The state ofApp::update reads and writes while dispatching one packet:
the node's own id and role, the peers map (association list in map order),
the incoming transfer, the warps.json writes, the committed media files
(name with the buffer's store log, written to name.tmp then renamed over
name), and the delegated effects. -/
structure AppState where
  myId : String
  isMaster : Bool
  peers : List (String × PeerRec)
  incoming : Incoming
  configWrites : List String
  mediaWrites : List (String × List (Nat × List Nat))
  effects : List AppEffect
  deriving Repr, DecidableEq

/-- The environment of one dispatch: the elapated-time clock and the digest
TinyMD5::getFileMD5 returns for a media file named by its relative path. -/
structure AppEnv where
  now : Int
  localDigest : String → String

/-- Upsert into the peers association list, as map operator[] assignment. -/
def upsertPeerRec (ps : List (String × PeerRec)) (k : String) (v : PeerRec) :
    List (String × PeerRec) :=
  if ps.any (fun pr => pr.1 = k) then ps.map (fun pr => if pr.1 = k then (k, v) else pr)
  else ps ++ [(k, v)]

/-- The modulus of uint32_t arithmetic. -/
def U32MOD : Nat := 4294967296

/-- One iteration of the receive loop of ofApp::update (ofApp.cpp lines 92 to
170): drop the packet unless the magic byte matches; drop it when the first
eight bytes of the sender id equal the node's own id (the loopback guard);
otherwise dispatch on the type. The PKT_FILE_CHUNK guard compares
offset plus size to incoming.total in uint32_t arithmetic, exactly as the
C++ expression p.offset + p.size does. -/
def processPacket (env : AppEnv) (st : AppState) (pkt : Packet) : AppState :=
  if pkt.headerId ≠ PACKET_ID then st
  else if pkt.senderId.take 8 = st.myId.take 8 then st
  else
    match pkt.body with
    | PacketBody.heartbeat peerId isM =>
      if peerId = st.myId then st
      else
        let isNew := ¬ st.peers.any (fun pr => pr.1 = peerId)
        let st1 := { st with peers := upsertPeerRec st.peers peerId ⟨peerId, isM, env.now⟩ }
        if isNew ∧ st1.isMaster then { st1 with effects := st1.effects ++ [AppEffect.fullSync] }
        else st1
    | PacketBody.warpData owner sIdx mode pIdx x y =>
      if st.isMaster then st
      else { st with effects := st.effects ++ [AppEffect.warpUpdate owner sIdx mode pIdx x y] }
    | PacketBody.structData j =>
      if st.isMaster then st
      else { st with configWrites := st.configWrites ++ [j],
                     effects := st.effects ++ [AppEffect.loadStructure j] }
    | PacketBody.fileOffer totalSize _nameLen hash name =>
      if st.isMaster then st
      else if env.localDigest name ≠ hash then
        { st with incoming := ⟨true, name, totalSize, 0, []⟩ }
      else st
    | PacketBody.fileChunk offset size payload =>
      if st.incoming.active then
        if (offset + size) % U32MOD ≤ st.incoming.total then
          { st with incoming := { st.incoming with
              writes := st.incoming.writes ++ [(offset, payload)],
              current := (st.incoming.current + size) % U32MOD } }
        else st
      else st
    | PacketBody.fileEnd =>
      if st.incoming.active then
        { st with incoming := { st.incoming with active := false },
                  mediaWrites := st.mediaWrites ++ [(st.incoming.name, st.incoming.writes)] }
      else st

/-! ## Coms::process (Coms.cpp lines 81 to 144) -/

/-- A decoded message as Coms::process hands it to its caller. -/
structure ComsMessage where
  from_uid : String
  last_seen : Nat
  command : String
  content : String
  deriving Repr, DecidableEq

/-- A unicast reply Coms::process sends while handling an announce. -/
structure ComsSend where
  target : String
  command : String
  content : String
  deriving Repr, DecidableEq

/-- The state Coms::process reads and writes: own uid, the broadcast
pseudo-uid (zeros of uid length), the preferred ip, the sync port, and the
peers map in map order. -/
structure ComsState where
  uid : String
  broadcast_uid : String
  preferredIp : String
  syncPort : Nat
  peers : List (String × Peer)
  deriving Repr, DecidableEq

/-- Lookup giving map operator[] semantics on read: a missing key reads as a
value-initialized Peer. -/
def lookupPeerDefault (ps : List (String × Peer)) (k : String) : Peer :=
  ((ps.find? fun pr => pr.1 = k).map Prod.snd).getD ⟨"", "", false, 0, 0⟩

/-- Upsert into the peers association list, as map operator[] assignment. -/
def upsertPeer (ps : List (String × Peer)) (k : String) (v : Peer) :
    List (String × Peer) :=
  if ps.any (fun pr => pr.1 = k) then ps.map (fun pr => if pr.1 = k then (k, v) else pr)
  else ps ++ [(k, v)]

/-- Coms::process on one received datagram (Coms.cpp lines 81 to 144): an
empty read does nothing; the first hash_len bytes name the sender and a
message from the node's own uid is ignored entirely; otherwise the peer is
upserted with last_seen now, and when the target field is the broadcast uid
or the own uid the one-byte command and the content are extracted, announce
and announce-reply running parseIpPort on the content and re-storing the
peer, announce also sending the unicast reply. The substr calls throw
std::out_of_range when the message is shorter than the field layout requires,
modelled as none. Returns the new state, the decoded messages and the sends. -/
def comsProcess (st : ComsState) (now : Nat) (msg : String) :
    Option (ComsState × List ComsMessage × List ComsSend) :=
  if msg = "" then some (st, [], [])
  else
    let hl := st.uid.length
    let from_uid := msg.take hl
    if from_uid = st.uid then some (st, [], [])
    else if hl > msg.length then none
    else
      let p0 := lookupPeerDefault st.peers from_uid
      let p1 := { p0 with uid := from_uid, last_seen := now }
      let peers1 := upsertPeer st.peers from_uid p1
      let target_uid := (msg.drop hl).take hl
      if target_uid = st.broadcast_uid ∨ target_uid = st.uid then
        if 2 * hl > msg.length then none
        else
          let command := (msg.drop (2 * hl)).take 1
          if 2 * hl + 1 > msg.length then none
          else
            let content := msg.drop (2 * hl + 1)
            let m : ComsMessage := ⟨from_uid, now, command, content⟩
            if command = "0" then
              let p2 := (parseIpPort content p1).2
              let peers2 := upsertPeer peers1 from_uid p2
              let reply : ComsSend :=
                ⟨from_uid, "1", st.preferredIp ++ ":" ++ toString st.syncPort⟩
              some ({ st with peers := peers2 }, [m], [reply])
            else if command = "1" then
              let p2 := (parseIpPort content p1).2
              let peers2 := upsertPeer peers1 from_uid p2
              some ({ st with peers := peers2 }, [m], [])
            else
              some ({ st with peers := peers1 }, [m], [])
      else
        some ({ st with peers := peers1 }, [], [])

/-! ## Client session cache (ClientSession variant, Client::connect lines 465
to 501, ping_session lines 567 to 572, handshake lines 574 to 583) -/

/-- A socket address: host and port. -/
structure Addr where
  ip : String
  port : Nat
  deriving Repr, DecidableEq

/-- The client state the connect path touches: connectedness, the current
session address, the server's well-known address, and the session cache
keyed by host colon port. -/
structure ClientState where
  connected : Bool
  sessionAddr : Addr
  serverMainAddr : Addr
  sessions : List (String × Addr)
  deriving Repr, DecidableEq

/-- The datagrams the connect path sends: a PING with its PONG wait in
milliseconds, or a HELLO with its WELCOME wait and its retry count. -/
inductive NetAction where
  | ping (dest : Addr) (timeoutMs : Nat)
  | hello (dest : Addr) (timeoutMs : Nat) (tries : Nat)
  deriving Repr, DecidableEq

/-- unordered_map::erase on the session cache. -/
def eraseSession (ss : List (String × Addr)) (k : String) : List (String × Addr) :=
  ss.filter (fun e => e.1 ≠ k)

/-- unordered_map operator[] assignment on the session cache. -/
def upsertSession (ss : List (String × Addr)) (k : String) (a : Addr) :
    List (String × Addr) :=
  if ss.any (fun e => e.1 = k) then ss.map (fun e => if e.1 = k then (k, a) else e)
  else ss ++ [(k, a)]

/-- unordered_map::count then operator[] read on the session cache. -/
def lookupSession (ss : List (String × Addr)) (k : String) : Option Addr :=
  (ss.find? fun e => e.1 = k).map Prod.snd

/-- Client::handshake: point the session at the well-known address, send
CMD_HELLO up to three times waiting 500 ms each for CMD_WELCOME; the oracle
welcomePort carries the ephemeral port of the WELCOME that arrived, if any,
upon which the session address becomes the main address with that port and
the client counts as connected. -/
def clientHandshake (st : ClientState) (welcomePort : Option Nat) :
    Bool × ClientState × List NetAction :=
  let st1 := { st with sessionAddr := st.serverMainAddr, connected := false }
  match welcomePort with
  | some p =>
    (true, { st1 with sessionAddr := ⟨st.serverMainAddr.ip, p⟩, connected := true },
     [NetAction.hello st.serverMainAddr 500 3])
  | none => (false, st1, [NetAction.hello st.serverMainAddr 500 3])

/-- Client::connect: resolve the main address, form the session key host
colon port; when the cache holds a session for the key, point the session at
it and send CMD_PING, a CMD_PONG within 200 ms (the pong oracle) reusing the
session; on a missed pong erase the cache entry and fall back to the full
handshake, whose success stores the fresh session address under the key. -/
def clientConnect (st : ClientState) (host : String) (port : Nat)
    (pong : Bool) (welcomePort : Option Nat) :
    Bool × ClientState × List NetAction :=
  let main : Addr := ⟨host, port⟩
  let st0 := { st with serverMainAddr := main }
  let key := host ++ ":" ++ toString port
  match lookupSession st0.sessions key with
  | some a =>
    let st1 := { st0 with sessionAddr := a }
    if pong then (true, { st1 with connected := true }, [NetAction.ping a 200])
    else
      let st2 := { st1 with sessions := eraseSession st1.sessions key }
      let hs := clientHandshake st2 welcomePort
      if hs.1 then
        (true, { hs.2.1 with
          sessions := upsertSession hs.2.1.sessions key hs.2.1.sessionAddr },
         NetAction.ping a 200 :: hs.2.2)
      else (false, hs.2.1, NetAction.ping a 200 :: hs.2.2)
  | none =>
    let hs := clientHandshake st0 welcomePort
    if hs.1 then
      (true, { hs.2.1 with
        sessions := upsertSession hs.2.1.sessions key hs.2.1.sessionAddr }, hs.2.2)
    else (false, hs.2.1, hs.2.2)

/-! ## Theorems on parseIpPort, identity and the warp grids -/

/-- Helper: a last-colon split exists exactly when the string holds a colon. -/
theorem splitLastColonAux_isSome_iff (cs : List Char) :
    (splitLastColonAux cs).isSome ↔ ':' ∈ cs := by
  induction cs with
  | nil => simp [splitLastColonAux]
  | cons c rest ih =>
    simp only [splitLastColonAux, List.mem_cons]
    cases h : splitLastColonAux rest with
    | none =>
      have hrest : ':' ∉ rest := by
        intro hm
        have := ih.mpr hm
        simp [h] at this
      by_cases hc : c = ':'
      · simp [hc]
      · simp only [if_neg hc, Option.isSome_none, Bool.false_eq_true, false_iff]
        rintro (h1 | h2)
        · exact hc h1.symm
        · exact hrest h2
    | some pp =>
      have hmem : ':' ∈ rest := ih.mp (by simp [h])
      simp [hmem]

/-- Grid size of WarpSurface::setup: (rows plus 1) times (cols plus 1). -/
theorem setupGrid_length (rows cols : Int) :
    (setupGrid rows cols).length = (rows + 1).toNat * (cols + 1).toNat := by
  rw [setupGrid, List.length_flatMap]
  have h1 : (List.length ∘ fun y : ℕ => List.map
      (fun x : ℕ => ((x : ℚ) / (cols : ℚ), (y : ℚ) / (rows : ℚ)))
      (List.range (cols + 1).toNat))
      = fun _ : ℕ => (cols + 1).toNat := by
    funext y
    simp
  rw [h1, List.map_const', List.length_range, List.sum_replicate, smul_eq_mul]

/-- C10: Coms::parseIpPort returns true exactly when the input holds a colon
and the substring after the last colon is a nonempty all-digit string whose
decimal value fits in 16 bits; a split exists exactly when the input holds a
colon; on success the peer's ip is the part before the last colon and
syncPort the parsed value; on failure the peer is returned untouched. -/
theorem parseIpPort_characterization (input : String) (out : Peer) :
    ((parseIpPort input out).1 = true ↔
      ∃ pre post, splitAtLastColon input = some (pre, post) ∧
        post.data ≠ [] ∧ post.data.all Char.isDigit ∧ digitsVal post ≤ 65535) ∧
    ((splitAtLastColon input).isSome ↔ ':' ∈ input.data) ∧
    (∀ pre post, splitAtLastColon input = some (pre, post) →
      (parseIpPort input out).1 = true →
      (parseIpPort input out).2.ip = pre ∧
      (parseIpPort input out).2.syncPort = digitsVal post) ∧
    ((parseIpPort input out).1 = false → (parseIpPort input out).2 = out) := by
  refine ⟨?_, ?_, ?_, ?_⟩
  · cases hsp : splitAtLastColon input with
    | none => simp [parseIpPort, hsp]
    | some pp =>
      obtain ⟨pre, post⟩ := pp
      by_cases hd : post.data ≠ [] ∧ post.data.all Char.isDigit
      · by_cases hv : digitsVal post ≤ 65535
        · simp only [parseIpPort, hsp, fromCharsU16, if_pos hd, if_pos hv, true_iff]
          exact ⟨pre, post, rfl, hd.1, hd.2, hv⟩
        · simp [parseIpPort, hsp, fromCharsU16, hd, hv]
          intro _
          omega
      · simp only [not_and_or] at hd
        rcases hd with hd | hd
        · simp only [ne_eq, not_not] at hd
          simp [parseIpPort, hsp, fromCharsU16, hd]
        · simp [parseIpPort, hsp, fromCharsU16, hd]
          intro _ hall
          exact absurd (List.all_eq_true.mpr hall) hd
  · rw [show (splitAtLastColon input).isSome = (splitLastColonAux input.data).isSome by
      simp [splitAtLastColon]]
    exact splitLastColonAux_isSome_iff input.data
  · intro pre post hsp hok
    cases hfc : fromCharsU16 post with
    | none => simp [parseIpPort, hsp, hfc] at hok
    | some port =>
      have hval : port = digitsVal post := by
        simp [fromCharsU16] at hfc
        exact hfc.2.2.symm
      subst hval
      simp [parseIpPort, hsp, hfc]
  · intro hfail
    cases hsp : splitAtLastColon input with
    | none => simp [parseIpPort, hsp]
    | some pp =>
      obtain ⟨pre, post⟩ := pp
      cases hfc : fromCharsU16 post with
      | none => simp [parseIpPort, hsp, hfc]
      | some port => simp [parseIpPort, hsp, hfc] at hfail

/-- C9 counterexample: a settings document storing eight bang characters as
the id is not made of characters from the 0-9 A-Z a-z range, yet
Identity::setup keeps it unchanged and does not write the settings back,
because the source only tests the length. -/
theorem identitySetup_keeps_nonalnum_id :
    identitySetup (some "!!!!!!!!") "A0a0B1b1" = ("!!!!!!!!", false) ∧
    ("!!!!!!!!".data.all Char.isAlphanum) = false := by
  exact ⟨by decide, by decide⟩

/-- C9 amended: Identity::setup regenerates exactly on length: a stored id of
length 8, whatever its characters, is kept without saving; a missing id or one
of any other length is replaced by the freshly generated id and saved.
generateID always yields ids of length 8, so an id saved by one run is kept
unchanged by every later run. -/
theorem identitySetup_length_rule (stored : Option String) (fresh : String)
    (rnd : Nat → Nat) :
    ((stored.getD "").length = 8 → identitySetup stored fresh = (stored.getD "", false)) ∧
    ((stored.getD "").length ≠ 8 → identitySetup stored fresh = (fresh, true)) ∧
    (generateID rnd).length = 8 ∧
    identitySetup (some (generateID rnd)) fresh = (generateID rnd, false) := by
  have hg : (generateID rnd).length = 8 := by
    simp [generateID, String.length]
  refine ⟨?_, ?_, hg, ?_⟩
  · intro h
    simp [identitySetup, h]
  · intro h
    simp [identitySetup, h]
  · simp [identitySetup, hg]

/-- C3 counterexample: a surface freshly set up with rows = cols = 3 holds 16
control points in each grid, not rows times cols = 9. -/
theorem warpSetup_3x3_not_rows_times_cols :
    (warpSetup 3 3).renderVerts.length = 16 ∧
    (warpSetup 3 3).sourceVerts.length = 16 ∧
    ¬ ((warpSetup 3 3).renderVerts.length = 3 * 3) := by
  have h : (setupGrid 3 3).length = 16 := by
    rw [setupGrid_length]
    rfl
  refine ⟨h, h, ?_⟩
  rw [show (warpSetup 3 3).renderVerts = setupGrid 3 3 from rfl, h]
  decide

/-- C3 amended: for every surface built by WarpSurface::setup the output grid
and the source grid hold the same number of control points, namely
(rows plus 1) times (cols plus 1) (a grid of rows by cols cells), and the
serialized geo and tex arrays of toJson have those same lengths. -/
theorem warpSetup_grid_sizes (rows cols : Int) :
    (warpSetup rows cols).renderVerts.length = (warpSetup rows cols).sourceVerts.length ∧
    (warpSetup rows cols).renderVerts.length = (rows + 1).toNat * (cols + 1).toNat ∧
    (toJsonGrids (warpSetup rows cols)).1.length = (rows + 1).toNat * (cols + 1).toNat ∧
    (toJsonGrids (warpSetup rows cols)).2.length = (rows + 1).toNat * (cols + 1).toNat := by
  have h := setupGrid_length rows cols
  exact ⟨rfl, h, h, h⟩

/-- Helper: an unbroken run of present sightings of a tracked path is the
plain single-file run: the lifecycle adds nothing while the file never
vanishes. -/
theorem scanLifeRun_present_eq (info : PathInfo) (obs : List ScanObs) :
    (scanLifeRun (some info) (obs.map ScanSight.present)).2 = (scanRunFile info obs).2 := by
  induction obs generalizing info with
  | nil => rfl
  | cons o rest ih =>
    simp only [List.map_cons, scanLifeRun, scanRunFile, scanLifeStep]
    rw [ih]

/-- C5 amended: within one unbroken tracked lifetime of a path, watcher
emissions always change the digest. Over any run of scans in which the file
never vanishes (such a run being exactly the lifecycle with only present
sightings), the sequence formed by the last confirmed digest followed by the
emitted digests has no two consecutive equal entries: every emission differs
from the digest last confirmed for the path and two consecutive emissions in
the lifetime never carry equal digests; and a scan observing a hash equal to
the stored last_md5 emits nothing, so repeated writes leaving the digest
unchanged produce no emission. Across lifetimes the memory resets, see the
accompanying counterexample. -/
theorem watcher_emissions_change_digest (info : PathInfo) (obs : List ScanObs) :
    List.Chain' (· ≠ ·) (info.last_md5 :: (scanRunFile info obs).2) ∧
    (scanLifeRun (some info) (obs.map ScanSight.present)).2 = (scanRunFile info obs).2 ∧
    (∀ t n s, (scanStepFile info ⟨t, n, s, info.last_md5⟩).2 = none) := by
  refine ⟨?_, scanLifeRun_present_eq info obs, ?_⟩
  · induction obs generalizing info with
    | nil => simp [scanRunFile]
    | cons o rest ih =>
      simp only [scanRunFile]
      cases hstep : (scanStepFile info o).2 with
      | none =>
        have hlast := scanStepFile_noemit info o hstep
        have htail := ih (scanStepFile info o).1
        rw [hlast] at htail
        simpa using htail
      | some d =>
        have hd := scanStepFile_emit info o d hstep
        have htail := ih (scanStepFile info o).1
        rw [hd.2] at htail
        simp only [Option.toList_some, List.cons_append, List.nil_append]
        rw [List.chain'_cons]
        exact ⟨hd.1.symm, htail⟩
  · intro t n s
    unfold scanStepFile
    split_ifs <;> simp_all

/-- C5 counterexample: deleting a file and recreating it with identical
content makes the watcher emit the same digest twice consecutively. The file
appears with digest d1 (registered, then emitted once settled), vanishes (its
entry is erased silently), reappears with mtime-stable identical content and,
its last_md5 having been reset to empty by re-registration, is emitted again
with the very same digest d1: two consecutive equal emissions for the path,
which the original claim forbids. Settle time 250 ms, scans 300 ms apart. -/
theorem watcher_reemits_same_digest :
    (scanLifeRun none
      [ScanSight.present ⟨100, 0, 250, "d1"⟩,
       ScanSight.present ⟨100, 300, 250, "d1"⟩,
       ScanSight.absent,
       ScanSight.present ⟨200, 600, 250, "d1"⟩,
       ScanSight.present ⟨200, 900, 250, "d1"⟩]).2 = ["d1", "d1"] ∧
    ¬ List.Chain' (· ≠ ·) (["d1", "d1"] : List String) := by
  refine ⟨by decide, ?_⟩
  intro h
  exact (List.chain'_cons.mp h).1 rfl

/-- C7 counterexample: with the local cache iterating as b then a, an order an
unordered hash map is free to present, and an empty remote listing, the pass
issues its uploads as b then a, which is not ascending lexicographic order of
rel_path. -/
theorem passOps_uploads_not_sorted :
    ¬ List.Sorted (fun a b => a ≤ b)
      (uploadPathsOf (passOps [("b", ⟨1, "d"⟩), ("a", ⟨1, "d"⟩)] [])) := by
  have hlist : uploadPathsOf (passOps [("b", ⟨1, "d"⟩), ("a", ⟨1, "d"⟩)] [])
      = ["b", "a"] := by rfl
  rw [hlist]
  intro hs
  have hba : ("b" : String) ≤ "a" := (List.sorted_cons.mp hs).1 "a" (by simp)
  rw [String.le_iff_toList_le] at hba
  revert hba
  decide

/-- C7 amended: the operation list of a pass is the uploads, walked in the
local cache's iteration order, followed by the deletes, walked in the remote
listing's iteration order; which path is uploaded or deleted is a function of
the content sets alone (upload exactly the local paths missing remotely or
differing in digest, delete exactly the remote paths absent locally), but the
issue order follows the unordered containers and is not sorted by rel_path. -/
theorem passOps_shape (localCache remote : List (String × FileEntry)) :
    (∃ us ds, passOps localCache remote = us ++ ds ∧
      (∀ o ∈ us, ∃ p, o = SyncOp.upload p) ∧ (∀ o ∈ ds, ∃ p, o = SyncOp.del p)) ∧
    (∀ p, SyncOp.upload p ∈ passOps localCache remote ↔
      ∃ e, (p, e) ∈ localCache ∧ needUpload remote p e = true) ∧
    (∀ p, SyncOp.del p ∈ passOps localCache remote ↔
      ∃ e, (p, e) ∈ remote ∧ lookupEntry localCache p = none) := by
  refine ⟨⟨_, _, rfl, ?_, ?_⟩, ?_, ?_⟩
  · intro o ho
    obtain ⟨pe, _, rfl⟩ := List.mem_map.mp ho
    exact ⟨pe.1, rfl⟩
  · intro o ho
    obtain ⟨pe, _, rfl⟩ := List.mem_map.mp ho
    exact ⟨pe.1, rfl⟩
  · intro p
    constructor
    · intro hmem
      rcases List.mem_append.mp hmem with hmem | hmem
      · obtain ⟨⟨q, e⟩, hin, heq⟩ := List.mem_map.mp hmem
        obtain ⟨hin', hneed⟩ := List.mem_filter.mp hin
        simp only [SyncOp.upload.injEq] at heq
        subst heq
        exact ⟨e, hin', hneed⟩
      · obtain ⟨⟨q, e⟩, hin, heq⟩ := List.mem_map.mp hmem
        simp at heq
    · rintro ⟨e, hin, hneed⟩
      refine List.mem_append.mpr (Or.inl ?_)
      exact List.mem_map.mpr ⟨(p, e), List.mem_filter.mpr ⟨hin, hneed⟩, rfl⟩
  · intro p
    constructor
    · intro hmem
      rcases List.mem_append.mp hmem with hmem | hmem
      · obtain ⟨⟨q, e⟩, hin, heq⟩ := List.mem_map.mp hmem
        simp at heq
      · obtain ⟨⟨q, e⟩, hin, heq⟩ := List.mem_map.mp hmem
        obtain ⟨hin', hnone⟩ := List.mem_filter.mp hin
        simp only [SyncOp.del.injEq] at heq
        subst heq
        refine ⟨e, hin', ?_⟩
        simpa [Option.isNone_iff_eq_none] using hnone
    · rintro ⟨e, hin, hnone⟩
      refine List.mem_append.mpr (Or.inr ?_)
      refine List.mem_map.mpr ⟨(p, e), List.mem_filter.mpr ⟨hin, ?_⟩, rfl⟩
      simp [hnone]

/-- C1: the relative path consisting of dot-dot then x defeats safe_path.
lexically_normal keeps a leading dot-dot component, so the returned path
resolves to the sibling x of the transfer root, not to a location inside it:
with root srv slash media the write lands at srv slash x. -/
theorem safe_path_escapes_root :
    osResolve (safe_path "../x" ["srv", "media"]).comps = ["srv", "x"] ∧
    ¬ insideRoot ["srv", "media"] (safe_path "../x" ["srv", "media"]) := by
  exact ⟨by rfl, by decide⟩

/-- C2: loopback suppression. A dispatched packet whose sender id equals the
node's own id leaves the application state unchanged (the guard fires before
any handler), and a datagram whose leading uid field equals the own uid
leaves the Coms state unchanged, decoding no message and sending nothing. -/
theorem loopback_suppression (env : AppEnv) (st : AppState) (pkt : Packet)
    (cst : ComsState) (now : Nat) (msg : String)
    (h1 : pkt.senderId = st.myId)
    (h2 : msg.take cst.uid.length = cst.uid) :
    processPacket env st pkt = st ∧ comsProcess cst now msg = some (cst, [], []) := by
  constructor
  · unfold processPacket
    by_cases hh : pkt.headerId ≠ PACKET_ID
    · simp [hh]
    · simp [hh, h1]
  · unfold comsProcess
    by_cases hm : msg = ""
    · simp [hm]
    · simp [hm, h2]

/-- Concrete loopback drop: node AAAAAAAA receiving a packet stamped with its
own sender id and an announce datagram opening with its own uid. -/
theorem loopback_suppression_witness :
    processPacket ⟨0, fun _ => ""⟩
        ⟨"AAAAAAAA", false, [], ⟨false, "", 0, 0, []⟩, [], [], []⟩
        ⟨PACKET_ID, "AAAAAAAA", PacketBody.fileEnd⟩
      = ⟨"AAAAAAAA", false, [], ⟨false, "", 0, 0, []⟩, [], [], []⟩ ∧
    comsProcess ⟨"AAAAAAAA", "00000000", "10.0.0.1", 9000, []⟩ 5 "AAAAAAAA00000000ok"
      = some (⟨"AAAAAAAA", "00000000", "10.0.0.1", 9000, []⟩, [], []) := by
  exact loopback_suppression ⟨0, fun _ => ""⟩
    ⟨"AAAAAAAA", false, [], ⟨false, "", 0, 0, []⟩, [], [], []⟩
    ⟨PACKET_ID, "AAAAAAAA", PacketBody.fileEnd⟩
    ⟨"AAAAAAAA", "00000000", "10.0.0.1", 9000, []⟩ 5 "AAAAAAAA00000000ok"
    rfl (by decide)

/-- C4: the FILE_CHUNK bound check wraps. With a receiving buffer whose total
is 10 bytes, a chunk whose offset field is 4294967295 and size field 2 has
exact integer sum 4294967297, larger than the total; the handler computes the
sum in uint32_t arithmetic, obtains 1, accepts the chunk and stores its two
bytes at offset 4294967295, a position at and past 10 and so beyond the
allocated buffer, also advancing current. -/
theorem fileChunk_bound_check_wraps :
    4294967295 + 2 > 10 ∧
    (processPacket ⟨0, fun _ => ""⟩
        ⟨"PEER0001", false, [], ⟨true, "v.mp4", 10, 0, []⟩, [], [], []⟩
        ⟨PACKET_ID, "MAST0001", PacketBody.fileChunk 4294967295 2 [7, 7]⟩).incoming
      = ⟨true, "v.mp4", 10, 2, [(4294967295, [7, 7])]⟩ ∧
    4294967295 ≥ 10 := by
  refine ⟨by norm_num, by decide, by norm_num⟩

/-- Helper: with no transfer active, a chunk or end packet leaves the whole
application state unchanged, whatever its header or sender. -/
theorem chunkEnd_noop (env : AppEnv) (st : AppState) (pkt : Packet)
    (hidle : st.incoming.active = false)
    (hbody : (∃ o s pl, pkt.body = PacketBody.fileChunk o s pl) ∨
      pkt.body = PacketBody.fileEnd) :
    processPacket env st pkt = st := by
  unfold processPacket
  by_cases hh : pkt.headerId ≠ PACKET_ID
  · simp [hh]
  · by_cases hs : pkt.senderId.take 8 = st.myId.take 8
    · simp [hh, hs]
    · rcases hbody with ⟨o, s, pl, hb⟩ | hb <;> rw [hb] <;> simp [hh, hs, hidle]

/-- Helper: with no transfer active, replaying any run of chunk and end
packets leaves the application state unchanged. -/
theorem chunkEnd_replay_noop (env : AppEnv) (st : AppState)
    (hidle : st.incoming.active = false) :
    ∀ frames : List Packet,
      (∀ f ∈ frames, (∃ o s pl, f.body = PacketBody.fileChunk o s pl) ∨
        f.body = PacketBody.fileEnd) →
      List.foldl (processPacket env) st frames = st := by
  intro frames
  induction frames with
  | nil => intro _; rfl
  | cons f rest ih =>
    intro hframes
    rw [List.foldl_cons, chunkEnd_noop env st f hidle (hframes f (by simp))]
    exact ih (fun g hg => hframes g (by simp [hg]))

/-- C6: an offer matching the local digest is idempotent. When the digest of
the named file on disk equals the offered digest, the FILE_OFFER handler
changes nothing: no buffer is allocated and receiving is not entered; and
with no transfer active beforehand, replaying any following FILE_CHUNK and
FILE_END frames leaves the whole state unchanged, in particular the media
and config write logs, so no disk write happens. -/
theorem fileOffer_replay_noop (env : AppEnv) (st : AppState)
    (hdr : Nat) (sender : String) (total nameLen : Nat) (hash name : String)
    (frames : List Packet)
    (hdig : env.localDigest name = hash)
    (hidle : st.incoming.active = false)
    (hframes : ∀ f ∈ frames,
      (∃ o s pl, f.body = PacketBody.fileChunk o s pl) ∨ f.body = PacketBody.fileEnd) :
    List.foldl (processPacket env) st
      (⟨hdr, sender, PacketBody.fileOffer total nameLen hash name⟩ :: frames) = st := by
  have hoffer : processPacket env st
      ⟨hdr, sender, PacketBody.fileOffer total nameLen hash name⟩ = st := by
    unfold processPacket
    by_cases hh : hdr ≠ PACKET_ID
    · simp [hh]
    · by_cases hs : sender.take 8 = st.myId.take 8
      · simp [hh, hs]
      · by_cases hm : st.isMaster <;> simp [hh, hs, hm, hdig]
  rw [List.foldl_cons, hoffer]
  exact chunkEnd_replay_noop env st hidle frames hframes

/-- Concrete idempotent replay: a peer holding a.mp4 at digest d1 receives an
offer for a.mp4 at digest d1 followed by a replayed chunk and end; nothing in
its state, media log included, changes. -/
theorem fileOffer_replay_noop_witness :
    List.foldl (processPacket ⟨0, fun _ => "d1"⟩)
      ⟨"PEER0001", false, [], ⟨false, "", 0, 0, []⟩, [], [], []⟩
      [⟨PACKET_ID, "MAST0001", PacketBody.fileOffer 4 5 "d1" "a.mp4"⟩,
       ⟨PACKET_ID, "MAST0001", PacketBody.fileChunk 0 4 [1, 2, 3, 4]⟩,
       ⟨PACKET_ID, "MAST0001", PacketBody.fileEnd⟩]
      = ⟨"PEER0001", false, [], ⟨false, "", 0, 0, []⟩, [], [], []⟩ := by
  exact fileOffer_replay_noop ⟨0, fun _ => "d1"⟩
    ⟨"PEER0001", false, [], ⟨false, "", 0, 0, []⟩, [], [], []⟩
    PACKET_ID "MAST0001" 4 5 "d1" "a.mp4"
    [⟨PACKET_ID, "MAST0001", PacketBody.fileChunk 0 4 [1, 2, 3, 4]⟩,
     ⟨PACKET_ID, "MAST0001", PacketBody.fileEnd⟩]
    rfl rfl
    (by
      intro f hf
      rcases List.mem_cons.mp hf with rfl | hf
      · exact Or.inl ⟨0, 4, [1, 2, 3, 4], rfl⟩
      · rcases List.mem_cons.mp hf with rfl | hf
        · exact Or.inr rfl
        · simp at hf)

/-- Helper: an erased session key is found by no later lookup of the cache. -/
theorem eraseSession_no_find (ss : List (String × Addr)) (k : String) :
    (eraseSession ss k).find? (fun e => e.1 = k) = none := by
  rw [List.find?_eq_none]
  intro e he
  have h2 := (List.mem_filter.mp he).2
  simpa using h2

/-- Helper: looking up an erased key gives nothing. -/
theorem lookupSession_erase (ss : List (String × Addr)) (k : String) :
    lookupSession (eraseSession ss k) k = none := by
  simp [lookupSession, eraseSession_no_find]

/-- Helper: storing a session under an erased key makes it the one found. -/
theorem lookupSession_upsert_erased (ss : List (String × Addr)) (k : String) (a : Addr) :
    lookupSession (upsertSession (eraseSession ss k) k a) k = some a := by
  have hany : (eraseSession ss k).any (fun e => e.1 = k) = false := by
    rw [← Bool.not_eq_true, List.any_eq_true]
    rintro ⟨e, he, hk⟩
    have h2 := (List.mem_filter.mp he).2
    simp at h2 hk
    exact h2 hk
  unfold upsertSession
  rw [hany]
  simp only [Bool.false_eq_true, if_false]
  unfold lookupSession
  rw [List.find?_append, eraseSession_no_find]
  simp

/-- C8: cached-session reuse. With a session address cached for host colon
port, connect first sends CMD_PING to the cached address waiting 200 ms for
CMD_PONG. A pong reuses the session: the call succeeds with the cached
session address and the cache untouched. A missed pong discards the entry
and performs the fresh CMD_HELLO handshake to the well-known port: a WELCOME
carrying port p makes host with p the session address and caches it under
the key, while no WELCOME leaves the connect failed with the key absent from
the cache. -/
theorem clientConnect_session_reuse (st : ClientState) (host : String) (port : Nat)
    (pong : Bool) (welcome : Option Nat) (a : Addr)
    (hcache : lookupSession st.sessions (host ++ ":" ++ toString port) = some a) :
    ((clientConnect st host port pong welcome).2.2.head? = some (NetAction.ping a 200)) ∧
    (pong = true →
      clientConnect st host port pong welcome =
        (true, { st with serverMainAddr := ⟨host, port⟩, sessionAddr := a,
                         connected := true },
         [NetAction.ping a 200])) ∧
    (pong = false →
      NetAction.hello ⟨host, port⟩ 500 3 ∈ (clientConnect st host port pong welcome).2.2 ∧
      (∀ p, welcome = some p →
        (clientConnect st host port pong welcome).1 = true ∧
        (clientConnect st host port pong welcome).2.1.sessionAddr = ⟨host, p⟩ ∧
        lookupSession (clientConnect st host port pong welcome).2.1.sessions
          (host ++ ":" ++ toString port) = some ⟨host, p⟩) ∧
      (welcome = none →
        (clientConnect st host port pong welcome).1 = false ∧
        lookupSession (clientConnect st host port pong welcome).2.1.sessions
          (host ++ ":" ++ toString port) = none)) := by
  simp only [clientConnect]
  rw [hcache]
  refine ⟨?_, ?_, ?_⟩
  · cases pong with
    | true => rfl
    | false => cases welcome <;> rfl
  · intro hp
    subst hp
    rfl
  · intro hp
    subst hp
    refine ⟨?_, ?_, ?_⟩
    · cases welcome <;> simp [clientHandshake]
    · intro p hw
      subst hw
      exact ⟨rfl, rfl,
        lookupSession_upsert_erased st.sessions (host ++ ":" ++ toString port) ⟨host, p⟩⟩
    · intro hw
      subst hw
      exact ⟨rfl, lookupSession_erase st.sessions (host ++ ":" ++ toString port)⟩

/-- Concrete session reuse: a cached session to 10.0.0.2 port 9000 at
ephemeral port 31000 answers the ping, and connect reuses exactly that
address. -/
theorem clientConnect_session_reuse_witness :
    clientConnect ⟨false, ⟨"", 0⟩, ⟨"", 0⟩, [("10.0.0.2:9000", ⟨"10.0.0.2", 31000⟩)]⟩
        "10.0.0.2" 9000 true none =
      (true, ⟨true, ⟨"10.0.0.2", 31000⟩, ⟨"10.0.0.2", 9000⟩,
        [("10.0.0.2:9000", ⟨"10.0.0.2", 31000⟩)]⟩,
       [NetAction.ping ⟨"10.0.0.2", 31000⟩ 200]) := by
  have h := clientConnect_session_reuse
    ⟨false, ⟨"", 0⟩, ⟨"", 0⟩, [("10.0.0.2:9000", ⟨"10.0.0.2", 31000⟩)]⟩
    "10.0.0.2" 9000 true none ⟨"10.0.0.2", 31000⟩ (by decide)
  exact h.2.1 rfl

end Invasiv
